import Mathlib

/-!
Shallow embedding of the oncall-go-client reconciliation engine
(internal/oncall/client.go and internal/oncall/entity.go).

The remote HTTP world is modelled as an environment: a pure oracle that
maps a call index and the issued request to a transport outcome
(transport error, or a status code with a response body).  Every client
function is translated into a Lean function that takes the environment
and the index of the next HTTP round trip, and returns its Go result
together with the trace of requests it issued, in order.  The call index
advances by the length of the trace, mirroring sequential execution.

Library calls are modelled as follows: url.JoinPath is an oracle in the
environment (none models a URL construction error); time.Parse with
layout 02/01/2006 is the executable function parseDDMMYYYY, returning
the Unix seconds of UTC midnight of the parsed civil date;
json decoding of a response body is modelled by decodeList and
decodeMap on an abstract body value; errors.Join of a list of errors is
modelled by the list itself, the empty list standing for a nil error;
Go maps are modelled as association lists with overwriting insert.
A nil pointer dereference (a Go panic) is modelled by the panicked
outcome constructor.
-/

namespace Oncall

/-! ## Endpoint constants (client.go lines 23-28) -/

def loginEndpoint : String := "/login"

def teamsEndpoint : String := "/api/v0/teams/"

def usersEndpoint : String := "/api/v0/users/"

def scheduleEndpoint : String := "/api/v0/events/"

/-! ## Configuration data model (entity.go) -/

structure Duty where
  date : String
  role : String
deriving DecidableEq, Repr

structure User where
  name : String
  fullName : String
  phoneNumber : String
  email : String
  schedule : List Duty
deriving DecidableEq, Repr

structure Team where
  name : String
  schedulingTimezone : String
  email : String
  slackChannel : String
  users : List User
deriving DecidableEq, Repr

structure Config where
  teams : List Team
deriving DecidableEq, Repr

/-- The client state: base URL and the anti-forgery token
(client.go lines 39-45; logger and transport carry no decision state). -/
structure Client where
  oncallURL : String
  csrfToken : String
deriving DecidableEq, Repr

/-- Response[T] of the source (URLPath, ResponseTime, StatusCode); the Data
payload is always nil for the create-type calls modelled here. -/
structure Response where
  urlPath : String
  responseTime : Nat
  statusCode : Nat
deriving DecidableEq, Repr

/-! ## HTTP model -/

/-- Request bodies, by the DTO that the source marshals. -/
inductive ReqBody where
  | empty
  | loginForm (username password : String)
  | teamCreate (name email schedulingTimezone slackChannel slackChannelNotifications : String)
  | nameOnly (name : String)
  | userUpdate (name fullName call email : String)
  | scheduleCreate (user team role : String) (startUnix endUnix : Int)
deriving DecidableEq, Repr

/-- Abstract response bodies, by what json decoding yields. -/
inductive RespBody where
  | jsonList (n : Nat)
  | jsonMap (fields : List (String × String))
  | badBody
deriving DecidableEq, Repr

/-- Decoding a body into a JSON array: the source only needs the length of
the decoded slice; a body that is not an array fails to decode and the
slice keeps its zero value (modelled by none). -/
def decodeList : RespBody → Option Nat
  | .jsonList n => some n
  | _ => none

/-- Decoding a body into map[string]string: on failure the map keeps
whatever was decoded, here the empty map. -/
def decodeMap : RespBody → List (String × String)
  | .jsonMap fields => fields
  | _ => []

structure HttpRequest where
  method : String
  url : String
  query : List (String × String)
  headers : List (String × String)
  body : ReqBody
deriving DecidableEq, Repr

/-- Outcome of one httpClient.Do round trip. -/
inductive TransportResult where
  | err (msg : String)
  | ok (status : Nat) (body : RespBody)
deriving DecidableEq, Repr

/-- The external world: url.JoinPath as a pure oracle (none on URL
construction error), the transport as an oracle over the call index and
the request, and the wall-clock duration observed around each call. -/
structure Env where
  joinPath : String → List String → Option String
  http : Nat → HttpRequest → TransportResult
  elapsed : Nat → Nat

/-- Go error values returned by the client (client.go lines 30-34 and
transport errors). -/
inductive GoError where
  | loginFailed
  | invalidEndpoint
  | invalidRequest
  | transportErr (msg : String)
deriving DecidableEq, Repr

/-- Result of a function that may return a value, return an error, or
panic (nil pointer dereference). -/
inductive Outcome (α : Type) where
  | ok (val : α)
  | err (e : GoError)
  | panicked
deriving DecidableEq, Repr

def outcomeErr {α : Type} : Outcome α → Option GoError
  | .err e => some e
  | _ => none

def outcomeIsOk {α : Type} : Outcome α → Bool
  | .ok _ => true
  | _ => false

/-! ## Go maps as association lists -/

abbrev GoMap (α : Type) := List (String × α)

def mapInsert {α : Type} (key : String) (v : α) : GoMap α → GoMap α
  | [] => [(key, v)]
  | (k2, v2) :: rest => if k2 = key then (key, v) :: rest else (k2, v2) :: mapInsert key v rest

def mapMem {α : Type} (key : String) (m : GoMap α) : Bool :=
  m.any (fun p => p.1 == key)

/-- m[key] for a map[string]string: the empty string when absent. -/
def mapGetD (fields : List (String × String)) (key : String) : String :=
  match fields.find? (fun p => p.1 == key) with
  | some p => p.2
  | none => ""

/-! ## Date parsing: time.Parse with layout 02/01/2006 -/

def isLeap (y : Nat) : Bool :=
  y % 4 == 0 && (y % 100 != 0 || y % 400 == 0)

/-- Number of days in a month, as Go daysIn. -/
def daysIn (m y : Nat) : Nat :=
  if m == 2 then (if isLeap y then 29 else 28)
  else if m == 4 || m == 6 || m == 9 || m == 11 then 30
  else 31

/-- Days since 1970-01-01 of a proleptic Gregorian civil date
(floor division throughout). -/
def daysFromCivil (y m d : Int) : Int :=
  let yy := if m ≤ 2 then y - 1 else y
  let era := Int.fdiv yy 400
  let yoe := yy - era * 400
  let mShift := if 2 < m then m - 3 else m + 9
  let doy := Int.fdiv (153 * mShift + 2) 5 + d - 1
  let doe := yoe * 365 + Int.fdiv yoe 4 - Int.fdiv yoe 100 + doy
  era * 146097 + doe - 719468

def digitVal (ch : Char) : Nat := ch.toNat - 48

/-- time.Parse with layout 02/01/2006 followed by .Unix(): requires two
zero-padded day digits, two month digits, a four digit year, the two
slashes, nothing else, and a calendar-valid day and month; yields the
Unix seconds of UTC midnight of that date.  none models a parse error. -/
def parseDDMMYYYY (s : String) : Option Int :=
  match s.toList with
  | [d1, d2, sep1, m1, m2, sep2, y1, y2, y3, y4] =>
    if sep1 == '/' && sep2 == '/' && d1.isDigit && d2.isDigit && m1.isDigit && m2.isDigit
        && y1.isDigit && y2.isDigit && y3.isDigit && y4.isDigit then
      let d := 10 * digitVal d1 + digitVal d2
      let m := 10 * digitVal m1 + digitVal m2
      let y := 1000 * digitVal y1 + 100 * digitVal y2 + 10 * digitVal y3 + digitVal y4
      if 1 ≤ m && m ≤ 12 && 1 ≤ d && d ≤ daysIn m y then
        some (daysFromCivil (Int.ofNat y) (Int.ofNat m) (Int.ofNat d) * 86400)
      else none
    else none
  | _ => none

/-! ## Request builders -/

def ctJsonHeader : String × String := ("Content-Type", "application/json")

def csrfHeader (c : Client) : String × String := ("X-CSRF-TOKEN", c.csrfToken)

def loginRequest (endp : String) : HttpRequest :=
  { method := "POST", url := endp, query := [],
    headers := [("Content-Type", "application/x-www-form-urlencoded;charset=UTF-8")],
    body := .loginForm "root" "root" }

def dutyQueryRequest (endp username teamname : String) (startUnix endUnix : Int)
    (role : String) : HttpRequest :=
  { method := "GET", url := endp,
    query := [("user", username), ("team", teamname), ("start", toString startUnix),
              ("end", toString endUnix), ("role", role)],
    headers := [], body := .empty }

def dutyCreateRequest (c : Client) (endp username teamname role : String)
    (startUnix endUnix : Int) : HttpRequest :=
  { method := "POST", url := endp, query := [],
    headers := [ctJsonHeader, csrfHeader c],
    body := .scheduleCreate username teamname role startUnix endUnix }

def teamCreateRequest (c : Client) (endp : String) (t : Team) : HttpRequest :=
  { method := "POST", url := endp, query := [],
    headers := [ctJsonHeader, csrfHeader c],
    body := .teamCreate t.name t.email t.schedulingTimezone t.slackChannel
      (t.slackChannel ++ "-alert") }

def userCreateRequest (c : Client) (endp name : String) : HttpRequest :=
  { method := "POST", url := endp, query := [],
    headers := [ctJsonHeader, csrfHeader c], body := .nameOnly name }

def userUpdateRequest (c : Client) (endp : String) (u : User) : HttpRequest :=
  { method := "PUT", url := endp, query := [],
    headers := [ctJsonHeader, csrfHeader c],
    body := .userUpdate u.name u.fullName u.phoneNumber u.email }

def addUserRequest (c : Client) (endp username : String) : HttpRequest :=
  { method := "POST", url := endp, query := [],
    headers := [ctJsonHeader, csrfHeader c], body := .nameOnly username }

/-! ## Client functions -/

/-- Login (client.go lines 91-122).  Note that the decode error of the
response body is discarded by the source: only a URL construction error
or a transport error fail the login. -/
def Login (c : Client) (env : Env) (k : Nat) :
    Client × Option GoError × List HttpRequest :=
  match env.joinPath c.oncallURL [loginEndpoint] with
  | none => (c, some .invalidEndpoint, [])
  | some endp =>
    let req := loginRequest endp
    match env.http k req with
    | .err _ => (c, some .loginFailed, [req])
    | .ok _ body =>
      ({ c with csrfToken := mapGetD (decodeMap body) "csrf_token" }, none, [req])

/-- existsDayDuty (client.go lines 260-285): a GET with query parameters
user, team, start, end, role; returns whether the decoded list is
non-empty; false on URL construction error, transport error, or a body
that does not decode as a list. -/
def existsDayDuty (c : Client) (env : Env) (k : Nat) (username teamname : String)
    (startUnix endUnix : Int) (role : String) : Bool × List HttpRequest :=
  match env.joinPath c.oncallURL [scheduleEndpoint] with
  | none => (false, [])
  | some endp =>
    let req := dutyQueryRequest endp username teamname startUnix endUnix role
    match env.http k req with
    | .err _ => (false, [req])
    | .ok _ body => (0 < (decodeList body).getD 0, [req])

/-- addDayDuty (client.go lines 193-258): empty date is skipped with a
nil error; URL construction error returns ErrInvalidEndpoint; a date
parse error is skipped with a nil error; otherwise the one-day window is
computed, existence is checked, and the duty is created only when the
check came back false.  A non-201 status on the create is only logged. -/
def addDayDuty (c : Client) (env : Env) (k : Nat) (duty : Duty)
    (username teamname : String) : Option GoError × List HttpRequest :=
  if duty.date = "" then (none, [])
  else
    match env.joinPath c.oncallURL [scheduleEndpoint] with
    | none => (some .invalidEndpoint, [])
    | some endp =>
      match parseDDMMYYYY duty.date with
      | none => (none, [])
      | some startUnix =>
        let endUnix := startUnix + 86400
        let ex := existsDayDuty c env k username teamname startUnix endUnix duty.role
        if ex.1 then (none, ex.2)
        else
          let req := dutyCreateRequest c endp username teamname duty.role startUnix endUnix
          match env.http (k + ex.2.length) req with
          | .err msg => (some (.transportErr msg), ex.2 ++ [req])
          | .ok _ _ => (none, ex.2 ++ [req])

/-- CreateSchedule (client.go lines 170-191): per-duty errors collected
in order; errors.Join of the collected list is modelled by the list
itself, with the empty list standing for the nil error. -/
def CreateSchedule (c : Client) (env : Env) (k : Nat) (username teamname : String) :
    List Duty → List GoError × List HttpRequest
  | [] => ([], [])
  | duty :: rest =>
    let r := addDayDuty c env k duty username teamname
    let rs := CreateSchedule c env (k + r.2.length) username teamname rest
    (r.1.toList ++ rs.1, r.2 ++ rs.2)

/-- CreateUser (client.go lines 316-389): the POST creates the name, the
metrics of that first call populate the returned Response, then a PUT to
the creation path joined with the user name uploads the profile.  The
PUT status code is only logged, but a URL construction or transport
failure of the PUT is returned as the error of the whole operation. -/
def CreateUser (c : Client) (env : Env) (k : Nat) (u : User) :
    Except GoError Response × List HttpRequest :=
  match env.joinPath c.oncallURL [usersEndpoint] with
  | none => (.error .invalidEndpoint, [])
  | some endp =>
    let req1 := userCreateRequest c endp u.name
    match env.http k req1 with
    | .err msg => (.error (.transportErr msg), [req1])
    | .ok status _ =>
      let result : Response := { urlPath := "", responseTime := env.elapsed k, statusCode := status }
      match env.joinPath endp [u.name] with
      | none => (.error .invalidEndpoint, [req1])
      | some endp2 =>
        let req2 := userUpdateRequest c endp2 u
        match env.http (k + 1) req2 with
        | .err msg => (.error (.transportErr msg), [req1, req2])
        | .ok _ _ => (.ok result, [req1, req2])

/-- AddUserToTeam (client.go lines 616-659): one POST; any completed
round trip yields a successful Response carrying the observed status. -/
def AddUserToTeam (c : Client) (env : Env) (k : Nat) (username teamname : String) :
    Except GoError Response × List HttpRequest :=
  match env.joinPath c.oncallURL [teamsEndpoint, teamname, "users"] with
  | none => (.error .invalidEndpoint, [])
  | some endp =>
    let req := addUserRequest c endp username
    match env.http k req with
    | .err msg => (.error (.transportErr msg), [req])
    | .ok status _ =>
      (.ok { urlPath := "", responseTime := env.elapsed k, statusCode := status }, [req])

structure TeamResponse where
  response : Response
  userCreateResponses : GoMap Response
  userAddToTeamResponses : GoMap Response
deriving DecidableEq, Repr

/-- The USERS loop of CreateTeam (client.go lines 452-477): for each user
in order, CreateUser, AddUserToTeam and CreateSchedule are executed; a
failed sub-step is only logged (a failed CreateUser or AddUserToTeam
additionally leaves no map entry) and never stops the loop. -/
def processUsers (c : Client) (env : Env) (k : Nat) (teamname : String) :
    List User → GoMap Response → GoMap Response →
    (GoMap Response × GoMap Response) × List HttpRequest
  | [], mc, ma => ((mc, ma), [])
  | u :: rest, mc, ma =>
    let rc := CreateUser c env k u
    let mc2 := match rc.1 with
      | .ok r => mapInsert u.name r mc
      | .error _ => mc
    let ra := AddUserToTeam c env (k + rc.2.length) u.name teamname
    let ma2 := match ra.1 with
      | .ok r => mapInsert u.name r ma
      | .error _ => ma
    let rs := CreateSchedule c env (k + rc.2.length + ra.2.length) u.name teamname u.schedule
    let rr := processUsers c env (k + rc.2.length + ra.2.length + rs.2.length) teamname rest mc2 ma2
    (rr.1, rc.2 ++ ra.2 ++ rs.2 ++ rr.2)

/-- CreateTeam (client.go lines 397-479).  On a transport error of the
team POST: with returnEarly the deferred res.Body.Close() dereferences
the nil response (modelled by panicked); without returnEarly the goto
jumps to the USERS loop, leaving the team Response at its zero value.
On a completed round trip the metrics are recorded (a non-201 status is
only logged) and the USERS loop runs. -/
def CreateTeam (c : Client) (env : Env) (k : Nat) (t : Team) (returnEarly : Bool) :
    Outcome TeamResponse × List HttpRequest :=
  match env.joinPath c.oncallURL [teamsEndpoint] with
  | none => (.err .invalidEndpoint, [])
  | some endp =>
    let req := teamCreateRequest c endp t
    match env.http k req with
    | .err _ =>
      if returnEarly then (.panicked, [req])
      else
        let rr := processUsers c env (k + 1) t.name t.users [] []
        (.ok { response := { urlPath := "", responseTime := 0, statusCode := 0 },
               userCreateResponses := rr.1.1, userAddToTeamResponses := rr.1.2 },
         req :: rr.2)
    | .ok status _ =>
      let rr := processUsers c env (k + 1) t.name t.users [] []
      (.ok { response := { urlPath := "", responseTime := env.elapsed k, statusCode := status },
             userCreateResponses := rr.1.1, userAddToTeamResponses := rr.1.2 },
       req :: rr.2)

/-- The loop of CreateEntities (client.go lines 142-158) with the result
map and collected error list as accumulators.  A panic would propagate;
an erred team contributes its error and no map entry. -/
def createEntitiesAux (c : Client) (env : Env) :
    Nat → List Team → GoMap TeamResponse → List GoError →
    Outcome (GoMap TeamResponse × List GoError) × List HttpRequest
  | _, [], m, errs => (.ok (m, errs), [])
  | k, t :: rest, m, errs =>
    match CreateTeam c env k t false with
    | (.panicked, tr) => (.panicked, tr)
    | (.err e, tr) =>
      let r := createEntitiesAux c env (k + tr.length) rest m (errs ++ [e])
      (r.1, tr ++ r.2)
    | (.ok v, tr) =>
      let r := createEntitiesAux c env (k + tr.length) rest (mapInsert t.name v m) errs
      (r.1, tr ++ r.2)

/-- CreateEntities: the error list models errors.Join of the per-team
errors, the empty list standing for the nil error. -/
def CreateEntities (c : Client) (env : Env) (k : Nat) (config : Config) :
    Outcome (GoMap TeamResponse × List GoError) × List HttpRequest :=
  createEntitiesAux c env k config.teams [] []

/-- DeleteUser (client.go lines 287-312). -/
def DeleteUser (c : Client) (env : Env) (k : Nat) (name : String) :
    Option GoError × List HttpRequest :=
  match env.joinPath c.oncallURL [usersEndpoint, name] with
  | none => (some .invalidEndpoint, [])
  | some endp =>
    let req : HttpRequest :=
      { method := "DELETE", url := endp, query := [],
        headers := [csrfHeader c, ctJsonHeader], body := .empty }
    match env.http k req with
    | .err msg => (some (.transportErr msg), [req])
    | .ok _ _ => (none, [req])

/-- DeleteTeam (client.go lines 481-503): returns the transport error
itself, which is nil on success. -/
def DeleteTeam (c : Client) (env : Env) (k : Nat) (team : String) :
    Option GoError × List HttpRequest :=
  match env.joinPath c.oncallURL [teamsEndpoint, team] with
  | none => (some .invalidEndpoint, [])
  | some endp =>
    let req : HttpRequest :=
      { method := "DELETE", url := endp, query := [],
        headers := [ctJsonHeader, csrfHeader c], body := .empty }
    match env.http k req with
    | .err msg => (some (.transportErr msg), [req])
    | .ok _ _ => (none, [req])

/-- DeleteUserFromTeam (client.go lines 505-529). -/
def DeleteUserFromTeam (c : Client) (env : Env) (k : Nat) (user team : String) :
    Option GoError × List HttpRequest :=
  match env.joinPath c.oncallURL [teamsEndpoint, team, "users", user] with
  | none => (some .invalidEndpoint, [])
  | some endp =>
    let req : HttpRequest :=
      { method := "DELETE", url := endp, query := [],
        headers := [ctJsonHeader, csrfHeader c], body := .empty }
    match env.http k req with
    | .err msg => (some (.transportErr msg), [req])
    | .ok _ _ => (none, [req])

/-! ## Observation functions over the embedding -/

/-- The per-team outcomes of the CreateEntities loop: each team is
reconciled by createTeam with the call counter advanced by the previous
traces, in configuration order. -/
def teamRuns (c : Client) (env : Env) :
    Nat → List Team → List (Team × (Outcome TeamResponse × List HttpRequest))
  | _, [] => []
  | k, t :: rest =>
    let r := CreateTeam c env k t false
    (t, r) :: teamRuns c env (k + r.2.length) rest

/-- The requests of the USERS loop, spelled out per user: every user in
order contributes the trace of its CreateUser, then of its AddUserToTeam,
then of its CreateSchedule, whatever each outcome was. -/
def userStepsTrace (c : Client) (env : Env) (k : Nat) (teamname : String) :
    List User → List HttpRequest
  | [] => []
  | u :: rest =>
    let t1 := (CreateUser c env k u).2
    let t2 := (AddUserToTeam c env (k + t1.length) u.name teamname).2
    let t3 := (CreateSchedule c env (k + t1.length + t2.length) u.name teamname u.schedule).2
    t1 ++ t2 ++ t3 ++
      userStepsTrace c env (k + t1.length + t2.length + t3.length) teamname rest

/-- The per-duty outcomes of the CreateSchedule loop, in schedule order. -/
def dutyRuns (c : Client) (env : Env) :
    Nat → String → String → List Duty → List (Option GoError × List HttpRequest)
  | _, _, _, [] => []
  | k, username, teamname, d :: rest =>
    let r := addDayDuty c env k d username teamname
    r :: dutyRuns c env (k + r.2.length) username teamname rest

/-- The Response recorded for the team POST of CreateTeam: the zero value
when the round trip transport-failed (the goto jumps over the metrics
recording), the observed metrics otherwise. -/
def teamCallResponse (c : Client) (env : Env) (k : Nat) (t : Team) (endp : String) : Response :=
  match env.http k (teamCreateRequest c endp t) with
  | .err _ => { urlPath := "", responseTime := 0, statusCode := 0 }
  | .ok status _ => { urlPath := "", responseTime := env.elapsed k, statusCode := status }

/-- Every non-GET request of the trace carries the anti-forgery token. -/
def trHasToken (tok : String) (tr : List HttpRequest) : Prop :=
  ∀ req ∈ tr, req.method ≠ "GET" → ("X-CSRF-TOKEN", tok) ∈ req.headers

/-! ## Concrete fixtures used by the witnesses and counterexamples -/

/-- A concrete model of url.JoinPath that never fails. -/
def joinW : String → List String → Option String :=
  fun base parts => some (String.join (base :: parts))

def elapsedW : Nat → Nat := fun _ => 7

def cW : Client := { oncallURL := "http://oncall", csrfToken := "tok" }

def dutyW : Duty := { date := "01/06/2024", role := "primary" }

def uW : User :=
  { name := "alice", fullName := "Alice Doe", phoneNumber := "+111", email := "a@b.c",
    schedule := [dutyW] }

def tW : Team :=
  { name := "sre", schedulingTimezone := "UTC", email := "sre@b.c", slackChannel := "sre",
    users := [uW] }

def eventsURL : String := "http://oncall/api/v0/events/"

def teamsURL : String := "http://oncall/api/v0/teams/"

def usersURL : String := "http://oncall/api/v0/users/"

def loginURL : String := "http://oncall/login"

def aliceURL : String := "http://oncall/api/v0/users/alice"

def addUserURLW : String := "http://oncall/api/v0/teams/sreusers"

/-- Every call completes with status 200 and an empty JSON list body. -/
def envList0 : Env :=
  { joinPath := joinW, http := fun _ _ => .ok 200 (.jsonList 0), elapsed := elapsedW }

/-- Every call completes with status 201 and an empty JSON list body. -/
def envAll201 : Env :=
  { joinPath := joinW, http := fun _ _ => .ok 201 (.jsonList 0), elapsed := elapsedW }

/-- Every call fails at the transport level. -/
def envErr : Env :=
  { joinPath := joinW, http := fun _ _ => .err "down", elapsed := elapsedW }

/-- Every call completes with a non-created status 400. -/
def envStatus400 : Env :=
  { joinPath := joinW, http := fun _ _ => .ok 400 .badBody, elapsed := elapsedW }

/-- The first call succeeds with 201; every later call transport-fails. -/
def envPutFails : Env :=
  { joinPath := joinW,
    http := fun k _ => if k = 0 then .ok 201 .badBody else .err "boom",
    elapsed := elapsedW }

/-- Every call completes with a body that is not a JSON object, so the
login decode fails. -/
def envBadLoginBody : Env :=
  { joinPath := joinW, http := fun _ _ => .ok 200 .badBody, elapsed := elapsedW }

/-- The first call transport-fails; every later call completes with 201. -/
def envQueryFails : Env :=
  { joinPath := joinW,
    http := fun k _ => if k = 0 then .err "down" else .ok 201 .badBody,
    elapsed := elapsedW }

/-- A duty whose date is present but malformed for layout 02/01/2006. -/
def dutyBadW : Duty := { date := "32/01/2024", role := "primary" }

/-- A deliberate no-op placeholder duty. -/
def dutyEmptyW : Duty := { date := "", role := "manager" }

/-! ## Helper lemmas -/

theorem mapMem_mapInsert {α : Type} (name key : String) (v : α) (m : GoMap α) :
    mapMem name (mapInsert key v m) = ((key == name) || mapMem name m) := by
  induction m with
  | nil => simp [mapInsert, mapMem]
  | cons p rest ih =>
    obtain ⟨k2, v2⟩ := p
    by_cases h : k2 = key
    · subst h
      simp only [mapInsert, if_pos rfl, mapMem, List.any_cons] at *
      cases hb : (k2 == name) <;> simp [hb]
    · simp only [mapInsert, if_neg h, mapMem, List.any_cons] at *
      rw [ih]
      cases (k2 == name) <;> cases (key == name) <;> simp

theorem processUsers_trace (c : Client) (env : Env) (teamname : String) :
    ∀ (us : List User) (k : Nat) (mc ma : GoMap Response),
      (processUsers c env k teamname us mc ma).2 = userStepsTrace c env k teamname us := by
  intro us
  induction us with
  | nil => intro k mc ma; rfl
  | cons u rest ih =>
    intro k mc ma
    simp only [processUsers, userStepsTrace]
    rw [ih]

theorem CreateTeam_false_not_panicked (c : Client) (env : Env) (k : Nat) (t : Team) :
    (CreateTeam c env k t false).1 ≠ Outcome.panicked := by
  unfold CreateTeam
  cases hj : env.joinPath c.oncallURL [teamsEndpoint] with
  | none => simp
  | some endp => cases hh : env.http k (teamCreateRequest c endp t) <;> simp [hh]

theorem CreateTeam_false_eq (c : Client) (env : Env) (k : Nat) (t : Team) (endp : String)
    (hjoin : env.joinPath c.oncallURL [teamsEndpoint] = some endp) :
    CreateTeam c env k t false =
      (.ok { response := teamCallResponse c env k t endp,
             userCreateResponses := (processUsers c env (k + 1) t.name t.users [] []).1.1,
             userAddToTeamResponses := (processUsers c env (k + 1) t.name t.users [] []).1.2 },
       teamCreateRequest c endp t :: (processUsers c env (k + 1) t.name t.users [] []).2) := by
  unfold CreateTeam teamCallResponse
  simp only [hjoin]
  cases hh : env.http k (teamCreateRequest c endp t) <;> simp [hh]

theorem CreateSchedule_runs (c : Client) (env : Env) (username teamname : String) :
    ∀ (schedule : List Duty) (k : Nat),
      CreateSchedule c env k username teamname schedule =
        ((dutyRuns c env k username teamname schedule).filterMap (fun p => p.1),
         ((dutyRuns c env k username teamname schedule).map (fun p => p.2)).flatten) := by
  intro schedule
  induction schedule with
  | nil => intro k; rfl
  | cons d rest ih =>
    intro k
    simp only [CreateSchedule, dutyRuns, List.filterMap_cons, List.map_cons, List.flatten]
    rw [ih]
    cases h : (addDayDuty c env k d username teamname).1 <;> simp [h]

theorem createEntitiesAux_spec (c : Client) (env : Env) :
    ∀ (ts : List Team) (k : Nat) (m : GoMap TeamResponse) (errs : List GoError),
    ∃ m2 : GoMap TeamResponse,
      createEntitiesAux c env k ts m errs =
        (.ok (m2, errs ++ (teamRuns c env k ts).filterMap (fun p => outcomeErr p.2.1)),
         ((teamRuns c env k ts).map (fun p => p.2.2)).flatten) ∧
      ∀ name, mapMem name m2 =
        (mapMem name m ||
          (teamRuns c env k ts).any (fun p => p.1.name == name && outcomeIsOk p.2.1)) := by
  intro ts
  induction ts with
  | nil =>
    intro k m errs
    exact ⟨m, by simp [createEntitiesAux, teamRuns], by simp [teamRuns]⟩
  | cons t rest ih =>
    intro k m errs
    rcases hct : CreateTeam c env k t false with ⟨o, tr⟩
    cases o with
    | panicked =>
      have := CreateTeam_false_not_panicked c env k t
      rw [hct] at this
      simp at this
    | err e =>
      obtain ⟨m2, heq, hmem⟩ := ih (k + tr.length) m (errs ++ [e])
      refine ⟨m2, ?_, ?_⟩
      · simp only [createEntitiesAux, teamRuns, hct, heq]
        simp [outcomeErr]
      · intro name
        rw [hmem name]
        simp [teamRuns, hct, outcomeIsOk]
    | ok v =>
      obtain ⟨m2, heq, hmem⟩ := ih (k + tr.length) (mapInsert t.name v m) errs
      refine ⟨m2, ?_, ?_⟩
      · simp only [createEntitiesAux, teamRuns, hct, heq]
        simp [outcomeErr]
      · intro name
        rw [hmem name, mapMem_mapInsert]
        simp [teamRuns, hct, outcomeIsOk]
        cases (t.name == name) <;> cases mapMem name m <;> simp

theorem trHasToken_nil (tok : String) : trHasToken tok [] := by
  intro req hreq
  simp at hreq

theorem trHasToken_append {tok : String} {t1 t2 : List HttpRequest}
    (h1 : trHasToken tok t1) (h2 : trHasToken tok t2) : trHasToken tok (t1 ++ t2) := by
  intro req hreq hm
  rcases List.mem_append.mp hreq with h | h
  · exact h1 req h hm
  · exact h2 req h hm

theorem trHasToken_single (tok : String) (req : HttpRequest)
    (h : req.method ≠ "GET" → ("X-CSRF-TOKEN", tok) ∈ req.headers) :
    trHasToken tok [req] := by
  intro r hr hm
  rw [List.mem_singleton.mp hr]
  exact h (by rw [List.mem_singleton.mp hr] at hm; exact hm)

theorem trHasToken_cons {tok : String} {req : HttpRequest} {tr : List HttpRequest}
    (h1 : req.method ≠ "GET" → ("X-CSRF-TOKEN", tok) ∈ req.headers)
    (h2 : trHasToken tok tr) : trHasToken tok (req :: tr) := by
  intro r hr hm
  rcases List.mem_cons.mp hr with heq | hmem
  · subst heq
    exact h1 hm
  · exact h2 r hmem hm

theorem trHasToken_existsDayDuty (c : Client) (env : Env) (k : Nat)
    (username teamname : String) (startUnix endUnix : Int) (role : String) :
    trHasToken c.csrfToken (existsDayDuty c env k username teamname startUnix endUnix role).2 := by
  unfold existsDayDuty
  cases hj : env.joinPath c.oncallURL [scheduleEndpoint] with
  | none => exact trHasToken_nil _
  | some endp =>
    dsimp only
    cases hh : env.http k (dutyQueryRequest endp username teamname startUnix endUnix role) with
    | err msg =>
      exact trHasToken_single _ _ (fun hm => (hm rfl).elim)
    | ok status body =>
      exact trHasToken_single _ _ (fun hm => (hm rfl).elim)

theorem trHasToken_addDayDuty (c : Client) (env : Env) (k : Nat) (duty : Duty)
    (username teamname : String) :
    trHasToken c.csrfToken (addDayDuty c env k duty username teamname).2 := by
  unfold addDayDuty
  by_cases hd : duty.date = ""
  · simp only [if_pos hd]
    exact trHasToken_nil _
  · simp only [if_neg hd]
    cases hj : env.joinPath c.oncallURL [scheduleEndpoint] with
    | none => exact trHasToken_nil _
    | some endp =>
      cases hp : parseDDMMYYYY duty.date with
      | none => exact trHasToken_nil _
      | some startUnix =>
        dsimp only
        have h1 := trHasToken_existsDayDuty c env k username teamname startUnix
          (startUnix + 86400) duty.role
        rcases hex : existsDayDuty c env k username teamname startUnix
            (startUnix + 86400) duty.role with ⟨found, tr1⟩
        rw [hex] at h1
        cases found with
        | true => simpa using h1
        | false =>
          simp only [Bool.false_eq_true, if_false, if_neg]
          cases hh : env.http (k + tr1.length)
              (dutyCreateRequest c endp username teamname duty.role startUnix
                (startUnix + 86400)) with
          | err msg =>
            exact trHasToken_append h1
              (trHasToken_single _ _ (fun _ => by simp [dutyCreateRequest, csrfHeader]))
          | ok status body =>
            exact trHasToken_append h1
              (trHasToken_single _ _ (fun _ => by simp [dutyCreateRequest, csrfHeader]))

theorem trHasToken_CreateSchedule (c : Client) (env : Env) (username teamname : String) :
    ∀ (schedule : List Duty) (k : Nat),
      trHasToken c.csrfToken (CreateSchedule c env k username teamname schedule).2 := by
  intro schedule
  induction schedule with
  | nil => intro k; exact trHasToken_nil _
  | cons d rest ih =>
    intro k
    simp only [CreateSchedule]
    exact trHasToken_append (trHasToken_addDayDuty c env k d username teamname) (ih _)

theorem trHasToken_CreateUser (c : Client) (env : Env) (k : Nat) (u : User) :
    trHasToken c.csrfToken (CreateUser c env k u).2 := by
  unfold CreateUser
  cases hj : env.joinPath c.oncallURL [usersEndpoint] with
  | none => exact trHasToken_nil _
  | some endp =>
    dsimp only
    cases hh : env.http k (userCreateRequest c endp u.name) with
    | err msg =>
      exact trHasToken_single _ _ (fun _ => by simp [userCreateRequest, csrfHeader])
    | ok status body =>
      dsimp only
      cases hj2 : env.joinPath endp [u.name] with
      | none =>
        exact trHasToken_single _ _ (fun _ => by simp [userCreateRequest, csrfHeader])
      | some endp2 =>
        dsimp only
        cases hh2 : env.http (k + 1) (userUpdateRequest c endp2 u) with
        | err msg =>
          refine trHasToken_append
            (trHasToken_single _ _ (fun _ => by simp [userCreateRequest, csrfHeader])) ?_
          exact trHasToken_single _ _ (fun _ => by simp [userUpdateRequest, csrfHeader])
        | ok status2 body2 =>
          refine trHasToken_append
            (trHasToken_single _ _ (fun _ => by simp [userCreateRequest, csrfHeader])) ?_
          exact trHasToken_single _ _ (fun _ => by simp [userUpdateRequest, csrfHeader])

theorem trHasToken_AddUserToTeam (c : Client) (env : Env) (k : Nat)
    (username teamname : String) :
    trHasToken c.csrfToken (AddUserToTeam c env k username teamname).2 := by
  unfold AddUserToTeam
  cases hj : env.joinPath c.oncallURL [teamsEndpoint, teamname, "users"] with
  | none => exact trHasToken_nil _
  | some endp =>
    dsimp only
    cases hh : env.http k (addUserRequest c endp username) with
    | err msg =>
      exact trHasToken_single _ _ (fun _ => by simp [addUserRequest, csrfHeader])
    | ok status body =>
      exact trHasToken_single _ _ (fun _ => by simp [addUserRequest, csrfHeader])

theorem trHasToken_processUsers (c : Client) (env : Env) (teamname : String) :
    ∀ (us : List User) (k : Nat) (mc ma : GoMap Response),
      trHasToken c.csrfToken (processUsers c env k teamname us mc ma).2 := by
  intro us
  induction us with
  | nil => intro k mc ma; exact trHasToken_nil _
  | cons u rest ih =>
    intro k mc ma
    simp only [processUsers]
    refine trHasToken_append (trHasToken_append (trHasToken_append
      (trHasToken_CreateUser c env k u)
      (trHasToken_AddUserToTeam c env _ u.name teamname))
      (trHasToken_CreateSchedule c env u.name teamname u.schedule _)) (ih _ _ _)

theorem trHasToken_CreateTeam (c : Client) (env : Env) (k : Nat) (t : Team)
    (returnEarly : Bool) :
    trHasToken c.csrfToken (CreateTeam c env k t returnEarly).2 := by
  unfold CreateTeam
  cases hj : env.joinPath c.oncallURL [teamsEndpoint] with
  | none => exact trHasToken_nil _
  | some endp =>
    dsimp only
    cases hh : env.http k (teamCreateRequest c endp t) with
    | err msg =>
      cases returnEarly with
      | true =>
        dsimp only [if_true]
        exact trHasToken_single _ _ (fun _ => by simp [teamCreateRequest, csrfHeader])
      | false =>
        dsimp only [Bool.false_eq_true, if_false]
        refine trHasToken_cons (fun _ => by simp [teamCreateRequest, csrfHeader]) ?_
        exact trHasToken_processUsers c env t.name t.users (k + 1) [] []
    | ok status body =>
      dsimp only
      refine trHasToken_cons (fun _ => by simp [teamCreateRequest, csrfHeader]) ?_
      exact trHasToken_processUsers c env t.name t.users (k + 1) [] []

theorem trHasToken_createEntitiesAux (c : Client) (env : Env) :
    ∀ (ts : List Team) (k : Nat) (m : GoMap TeamResponse) (errs : List GoError),
      trHasToken c.csrfToken (createEntitiesAux c env k ts m errs).2 := by
  intro ts
  induction ts with
  | nil => intro k m errs; exact trHasToken_nil _
  | cons t rest ih =>
    intro k m errs
    rcases hct : CreateTeam c env k t false with ⟨o, tr⟩
    have htr : trHasToken c.csrfToken tr := by
      have := trHasToken_CreateTeam c env k t false
      rw [hct] at this
      exact this
    cases o with
    | panicked => simp only [createEntitiesAux, hct]; exact htr
    | err e =>
      simp only [createEntitiesAux, hct]
      exact trHasToken_append htr (ih _ _ _)
    | ok v =>
      simp only [createEntitiesAux, hct]
      exact trHasToken_append htr (ih _ _ _)

/-! ## Claim theorems -/

/-- Claim C1: for every duty with a non-empty, well-formed day/month/year
date, addDayDuty first queries the remote service for existing duties
matching exactly (user, team, role, start of day, start of day + 24h);
when the query completes and reports one or more matches no duty-create
call is issued, and the create call is issued exactly when it reports
zero matches. -/
theorem claim1_addDayDuty_query_gates_create (c : Client) (env : Env) (k : Nat) (duty : Duty)
    (username teamname endp : String) (startUnix : Int) (status : Nat) (body : RespBody)
    (n : Nat)
    (hd : duty.date ≠ "")
    (hjoin : env.joinPath c.oncallURL [scheduleEndpoint] = some endp)
    (hp : parseDDMMYYYY duty.date = some startUnix)
    (hq : env.http k (dutyQueryRequest endp username teamname startUnix (startUnix + 86400)
      duty.role) = .ok status body)
    (hn : decodeList body = some n) :
    (addDayDuty c env k duty username teamname).2 =
      if n = 0 then
        [dutyQueryRequest endp username teamname startUnix (startUnix + 86400) duty.role,
         dutyCreateRequest c endp username teamname duty.role startUnix (startUnix + 86400)]
      else
        [dutyQueryRequest endp username teamname startUnix (startUnix + 86400) duty.role] := by
  have hex : existsDayDuty c env k username teamname startUnix (startUnix + 86400) duty.role =
      (decide (0 < n),
       [dutyQueryRequest endp username teamname startUnix (startUnix + 86400) duty.role]) := by
    unfold existsDayDuty
    simp only [hjoin]
    rw [hq]
    simp [hn]
  unfold addDayDuty
  simp only [if_neg hd, hjoin, hp]
  rw [hex]
  dsimp only
  cases n with
  | zero =>
    simp only [decide_eq_true_eq, Nat.lt_irrefl, if_false, if_neg, List.length_singleton]
    cases env.http (k + 1)
        (dutyCreateRequest c endp username teamname duty.role startUnix (startUnix + 86400)) with
    | err msg => simp
    | ok st b => simp
  | succ m =>
    simp

/-- Claim C7: a Duty with an empty date never produces a remote call and
never contributes to the joined error of CreateSchedule; CreateSchedule
is exactly the per-duty runs with their errors collected in order and
their traces concatenated, and prepending an empty-date duty leaves the
whole result unchanged. -/
theorem claim7_empty_date_skipped :
    (∀ (c : Client) (env : Env) (k : Nat) (duty : Duty) (username teamname : String),
      duty.date = "" → addDayDuty c env k duty username teamname = (none, [])) ∧
    (∀ (c : Client) (env : Env) (k : Nat) (username teamname : String) (schedule : List Duty),
      CreateSchedule c env k username teamname schedule =
        ((dutyRuns c env k username teamname schedule).filterMap (fun p => p.1),
         ((dutyRuns c env k username teamname schedule).map (fun p => p.2)).flatten)) ∧
    (∀ (c : Client) (env : Env) (k : Nat) (username teamname : String) (duty : Duty)
        (rest : List Duty), duty.date = "" →
      CreateSchedule c env k username teamname (duty :: rest) =
        CreateSchedule c env k username teamname rest) := by
  refine ⟨?_, ?_, ?_⟩
  · intro c env k duty username teamname hd
    unfold addDayDuty
    simp [hd]
  · intro c env k username teamname schedule
    exact CreateSchedule_runs c env username teamname schedule k
  · intro c env k username teamname duty rest hd
    have h0 : addDayDuty c env k duty username teamname = (none, []) := by
      unfold addDayDuty
      simp [hd]
    simp only [CreateSchedule, h0]
    simp

/-- Claim C8: a duty with a non-empty date that fails to parse in
day/month/year format is skipped: addDayDuty issues no request and
returns a nil error, and the duty contributes nothing to the result of
CreateSchedule. -/
theorem claim8_parse_failure_skipped (c : Client) (env : Env) (k : Nat) (duty : Duty)
    (username teamname endp : String)
    (hd : duty.date ≠ "")
    (hjoin : env.joinPath c.oncallURL [scheduleEndpoint] = some endp)
    (hp : parseDDMMYYYY duty.date = none) :
    addDayDuty c env k duty username teamname = (none, []) ∧
    ∀ rest : List Duty,
      CreateSchedule c env k username teamname (duty :: rest) =
        CreateSchedule c env k username teamname rest := by
  have h0 : addDayDuty c env k duty username teamname = (none, []) := by
    unfold addDayDuty
    simp [hd, hjoin, hp]
  refine ⟨h0, fun rest => ?_⟩
  simp only [CreateSchedule, h0]
  simp

/-- Claim C9: CreateTeam called with returnEarly true hits the deferred
res.Body.Close() on a nil response when the team-create round trip
transport-fails: the function panics instead of failing gracefully. -/
theorem claim9_returnEarly_transport_panic (c : Client) (env : Env) (k : Nat) (t : Team)
    (endp msg : String)
    (hjoin : env.joinPath c.oncallURL [teamsEndpoint] = some endp)
    (hfail : env.http k (teamCreateRequest c endp t) = .err msg) :
    CreateTeam c env k t true = (.panicked, [teamCreateRequest c endp t]) := by
  unfold CreateTeam
  simp [hjoin, hfail]

/-- Claim C10: the duty-existence check fails open.  existsDayDuty
returns false when the URL cannot be constructed, when the query
transport-fails, and when the response body holds no decodable non-empty
list; and whenever the existence check came back false, addDayDuty
proceeds to issue the duty-create call. -/
theorem claim10_exists_fails_open :
    (∀ (c : Client) (env : Env) (k : Nat) (username teamname : String)
        (startUnix endUnix : Int) (role : String),
      env.joinPath c.oncallURL [scheduleEndpoint] = none →
      existsDayDuty c env k username teamname startUnix endUnix role = (false, [])) ∧
    (∀ (c : Client) (env : Env) (k : Nat) (username teamname : String)
        (startUnix endUnix : Int) (role endp msg : String),
      env.joinPath c.oncallURL [scheduleEndpoint] = some endp →
      env.http k (dutyQueryRequest endp username teamname startUnix endUnix role) = .err msg →
      existsDayDuty c env k username teamname startUnix endUnix role =
        (false, [dutyQueryRequest endp username teamname startUnix endUnix role])) ∧
    (∀ (c : Client) (env : Env) (k : Nat) (username teamname : String)
        (startUnix endUnix : Int) (role endp : String) (status : Nat) (body : RespBody),
      env.joinPath c.oncallURL [scheduleEndpoint] = some endp →
      env.http k (dutyQueryRequest endp username teamname startUnix endUnix role) =
        .ok status body →
      (decodeList body).getD 0 = 0 →
      existsDayDuty c env k username teamname startUnix endUnix role =
        (false, [dutyQueryRequest endp username teamname startUnix endUnix role])) ∧
    (∀ (c : Client) (env : Env) (k : Nat) (duty : Duty) (username teamname endp : String)
        (startUnix : Int),
      duty.date ≠ "" →
      env.joinPath c.oncallURL [scheduleEndpoint] = some endp →
      parseDDMMYYYY duty.date = some startUnix →
      (existsDayDuty c env k username teamname startUnix (startUnix + 86400) duty.role).1 =
        false →
      (addDayDuty c env k duty username teamname).2 =
        (existsDayDuty c env k username teamname startUnix (startUnix + 86400) duty.role).2 ++
          [dutyCreateRequest c endp username teamname duty.role startUnix (startUnix + 86400)]) := by
  refine ⟨?_, ?_, ?_, ?_⟩
  · intro c env k username teamname startUnix endUnix role hj
    unfold existsDayDuty
    simp [hj]
  · intro c env k username teamname startUnix endUnix role endp msg hj hh
    unfold existsDayDuty
    simp only [hj]
    rw [hh]
  · intro c env k username teamname startUnix endUnix role endp status body hj hh hdec
    unfold existsDayDuty
    simp only [hj]
    rw [hh]
    simp [hdec]
  · intro c env k duty username teamname endp startUnix hd hj hp hex
    unfold addDayDuty
    simp only [if_neg hd, hj, hp]
    rw [hex]
    cases env.http
        (k + (existsDayDuty c env k username teamname startUnix
          (startUnix + 86400) duty.role).2.length)
        (dutyCreateRequest c endp username teamname duty.role startUnix (startUnix + 86400)) with
    | err msg => simp
    | ok status body => simp

/-- Claim C2: CreateEntities reconciles every team in configuration
order (its trace is the concatenation of the per-team traces of
teamRuns), never aborts on a failing team, collects exactly the failing
teams' errors in order into the joined error (the empty list models a
nil joined error), and the returned map holds an entry for a name
exactly when some team of that name reconciled without error. -/
theorem claim2_createEntities_spec (c : Client) (env : Env) (k : Nat) (config : Config) :
    ∃ m : GoMap TeamResponse,
      CreateEntities c env k config =
        (.ok (m, (teamRuns c env k config.teams).filterMap (fun p => outcomeErr p.2.1)),
         ((teamRuns c env k config.teams).map (fun p => p.2.2)).flatten) ∧
      (∀ name, mapMem name m =
        (teamRuns c env k config.teams).any
          (fun p => p.1.name == name && outcomeIsOk p.2.1)) ∧
      ((teamRuns c env k config.teams).filterMap (fun p => outcomeErr p.2.1) = [] ↔
        ∀ p ∈ teamRuns c env k config.teams, outcomeErr p.2.1 = none) := by
  obtain ⟨m2, heq, hmem⟩ := createEntitiesAux_spec c env config.teams k [] []
  refine ⟨m2, ?_, ?_, ?_⟩
  · unfold CreateEntities
    simpa using heq
  · intro name
    simpa [mapMem] using hmem name
  · exact List.filterMap_eq_nil_iff

/-- Claim C3: CreateTeam as invoked by CreateEntities (returnEarly
false) always reaches membership reconciliation: whatever the outcome of
the team-create round trip (any status or a transport failure), it
returns without error and its trace is the team POST followed by
userStepsTrace, which by definition runs CreateUser, AddUserToTeam and
CreateSchedule for every user in configuration order regardless of any
sub-step failure. -/
theorem claim3_createTeam_processes_all_users (c : Client) (env : Env) (k : Nat) (t : Team)
    (endp : String)
    (hjoin : env.joinPath c.oncallURL [teamsEndpoint] = some endp) :
    CreateTeam c env k t false =
      (.ok { response := teamCallResponse c env k t endp,
             userCreateResponses := (processUsers c env (k + 1) t.name t.users [] []).1.1,
             userAddToTeamResponses := (processUsers c env (k + 1) t.name t.users [] []).1.2 },
       teamCreateRequest c endp t :: userStepsTrace c env (k + 1) t.name t.users) := by
  rw [CreateTeam_false_eq c env k t endp hjoin,
    processUsers_trace c env t.name t.users (k + 1) [] []]

/-- Claim C4 counterexample: with the initial create POST succeeding
(status 201) and the follow-up profile PUT failing at the transport
level, CreateUser returns that PUT failure as its own error — the
second call's outcome is reported upward to the caller, and the first
call's CallResult is discarded; the claim that the second call's outcome
is only logged is therefore false as stated. -/
theorem claim4_counterexample :
    (CreateUser cW envPutFails 0 uW).1 = .error (.transportErr "boom") := rfl

/-- Claim C4 amended: CreateUser returns a single CallResult whose timing
and status come from the first (name-only creation) call, the status
code of the second (profile-update PUT) call is only logged and never
reported upward, and the PUT targets the creation path joined with the
user's name as a final segment; however, a transport failure of the PUT
is propagated as the error of the whole operation. -/
theorem claim4_amended_createUser (c : Client) (env : Env) (k : Nat) (u : User)
    (endp endp2 : String)
    (h1 : env.joinPath c.oncallURL [usersEndpoint] = some endp)
    (h2 : env.joinPath endp [u.name] = some endp2) :
    (∀ (s1 s2 : Nat) (b1 b2 : RespBody),
      env.http k (userCreateRequest c endp u.name) = .ok s1 b1 →
      env.http (k + 1) (userUpdateRequest c endp2 u) = .ok s2 b2 →
      CreateUser c env k u =
        (.ok { urlPath := "", responseTime := env.elapsed k, statusCode := s1 },
         [userCreateRequest c endp u.name, userUpdateRequest c endp2 u])) ∧
    (∀ (s1 : Nat) (b1 : RespBody) (msg : String),
      env.http k (userCreateRequest c endp u.name) = .ok s1 b1 →
      env.http (k + 1) (userUpdateRequest c endp2 u) = .err msg →
      CreateUser c env k u =
        (.error (.transportErr msg),
         [userCreateRequest c endp u.name, userUpdateRequest c endp2 u])) := by
  constructor
  · intro s1 s2 b1 b2 hp1 hp2
    unfold CreateUser
    simp only [h1]
    rw [hp1]
    dsimp only
    simp only [h2]
    rw [hp2]
  · intro s1 b1 msg hp1 hp2
    unfold CreateUser
    simp only [h1]
    rw [hp1]
    dsimp only
    simp only [h2]
    rw [hp2]

/-- Claim C5 counterexample: the authentication exchange completes but
its body fails to decode as a JSON object; Login nevertheless returns no
error (the decode error is discarded by the source) and stores the empty
token, so the claim that Login fails with LoginFailed on any decode
error is false as stated. -/
theorem claim5_counterexample :
    (Login cW envBadLoginBody 0).2.1 = none ∧
    (Login cW envBadLoginBody 0).1.csrfToken = "" := ⟨rfl, rfl⟩

/-- Claim C5 amended: Login fails with InvalidEndpoint on a URL
construction error and with LoginFailed on a transport error; a decode
error of the authentication body is ignored (Login succeeds and stores
whatever the partial decode yields, the empty string for a missing
token); on success the token extracted from the body is stored, and the
stored token is attached as X-CSRF-TOKEN to every state-mutating
(non-GET) request later issued by the reconciliation and deletion
operations. -/
theorem claim5_amended_login_token :
    (∀ (c : Client) (env : Env) (k : Nat),
      env.joinPath c.oncallURL [loginEndpoint] = none →
      Login c env k = (c, some .invalidEndpoint, [])) ∧
    (∀ (c : Client) (env : Env) (k : Nat) (endp msg : String),
      env.joinPath c.oncallURL [loginEndpoint] = some endp →
      env.http k (loginRequest endp) = .err msg →
      Login c env k = (c, some .loginFailed, [loginRequest endp])) ∧
    (∀ (c : Client) (env : Env) (k : Nat) (endp : String) (status : Nat) (body : RespBody),
      env.joinPath c.oncallURL [loginEndpoint] = some endp →
      env.http k (loginRequest endp) = .ok status body →
      Login c env k =
        ({ c with csrfToken := mapGetD (decodeMap body) "csrf_token" }, none,
         [loginRequest endp])) ∧
    (∀ (c : Client) (env : Env) (k : Nat) (config : Config),
      trHasToken c.csrfToken (CreateEntities c env k config).2) ∧
    (∀ (c : Client) (env : Env) (k : Nat) (name : String),
      trHasToken c.csrfToken (DeleteUser c env k name).2) ∧
    (∀ (c : Client) (env : Env) (k : Nat) (team : String),
      trHasToken c.csrfToken (DeleteTeam c env k team).2) ∧
    (∀ (c : Client) (env : Env) (k : Nat) (user team : String),
      trHasToken c.csrfToken (DeleteUserFromTeam c env k user team).2) := by
  refine ⟨?_, ?_, ?_, ?_, ?_, ?_, ?_⟩
  · intro c env k hj
    unfold Login
    simp [hj]
  · intro c env k endp msg hj hh
    unfold Login
    simp only [hj]
    rw [hh]
  · intro c env k endp status body hj hh
    unfold Login
    simp only [hj]
    rw [hh]
  · intro c env k config
    unfold CreateEntities
    exact trHasToken_createEntitiesAux c env config.teams k [] []
  · intro c env k name
    unfold DeleteUser
    cases hj : env.joinPath c.oncallURL [usersEndpoint, name] with
    | none => exact trHasToken_nil _
    | some endp =>
      dsimp only
      cases hh : env.http k
          { method := "DELETE", url := endp, query := [],
            headers := [csrfHeader c, ctJsonHeader], body := .empty } with
      | err msg => exact trHasToken_single _ _ (fun _ => by simp [csrfHeader])
      | ok status body => exact trHasToken_single _ _ (fun _ => by simp [csrfHeader])
  · intro c env k team
    unfold DeleteTeam
    cases hj : env.joinPath c.oncallURL [teamsEndpoint, team] with
    | none => exact trHasToken_nil _
    | some endp =>
      dsimp only
      cases hh : env.http k
          { method := "DELETE", url := endp, query := [],
            headers := [ctJsonHeader, csrfHeader c], body := .empty } with
      | err msg => exact trHasToken_single _ _ (fun _ => by simp [csrfHeader])
      | ok status body => exact trHasToken_single _ _ (fun _ => by simp [csrfHeader])
  · intro c env k user team
    unfold DeleteUserFromTeam
    cases hj : env.joinPath c.oncallURL [teamsEndpoint, team, "users", user] with
    | none => exact trHasToken_nil _
    | some endp =>
      dsimp only
      cases hh : env.http k
          { method := "DELETE", url := endp, query := [],
            headers := [ctJsonHeader, csrfHeader c], body := .empty } with
      | err msg => exact trHasToken_single _ _ (fun _ => by simp [csrfHeader])
      | ok status body => exact trHasToken_single _ _ (fun _ => by simp [csrfHeader])

/-- Claim C6: every create-type primitive (create team, create user, add
user to team, create duty) that completes its transport round trips with
a non-created (non-201) status logs a warning but returns without error,
the observed status code being carried in the CallResult as the only
signal of the non-success. -/
theorem claim6_non_created_status_not_error :
    (∀ (c : Client) (env : Env) (k : Nat) (username teamname endp : String) (s : Nat)
        (b : RespBody),
      env.joinPath c.oncallURL [teamsEndpoint, teamname, "users"] = some endp →
      env.http k (addUserRequest c endp username) = .ok s b → s ≠ 201 →
      AddUserToTeam c env k username teamname =
        (.ok { urlPath := "", responseTime := env.elapsed k, statusCode := s },
         [addUserRequest c endp username])) ∧
    (∀ (c : Client) (env : Env) (k : Nat) (u : User) (endp endp2 : String) (s1 s2 : Nat)
        (b1 b2 : RespBody),
      env.joinPath c.oncallURL [usersEndpoint] = some endp →
      env.http k (userCreateRequest c endp u.name) = .ok s1 b1 → s1 ≠ 201 →
      env.joinPath endp [u.name] = some endp2 →
      env.http (k + 1) (userUpdateRequest c endp2 u) = .ok s2 b2 →
      CreateUser c env k u =
        (.ok { urlPath := "", responseTime := env.elapsed k, statusCode := s1 },
         [userCreateRequest c endp u.name, userUpdateRequest c endp2 u])) ∧
    (∀ (c : Client) (env : Env) (k : Nat) (t : Team) (endp : String) (s : Nat) (b : RespBody),
      env.joinPath c.oncallURL [teamsEndpoint] = some endp →
      env.http k (teamCreateRequest c endp t) = .ok s b → s ≠ 201 →
      ∃ r : TeamResponse,
        (CreateTeam c env k t false).1 = .ok r ∧ r.response.statusCode = s) ∧
    (∀ (c : Client) (env : Env) (k : Nat) (duty : Duty) (username teamname endp : String)
        (startUnix : Int) (s : Nat) (b : RespBody),
      duty.date ≠ "" →
      env.joinPath c.oncallURL [scheduleEndpoint] = some endp →
      parseDDMMYYYY duty.date = some startUnix →
      (existsDayDuty c env k username teamname startUnix (startUnix + 86400) duty.role).1 =
        false →
      env.http
          (k + (existsDayDuty c env k username teamname startUnix
            (startUnix + 86400) duty.role).2.length)
          (dutyCreateRequest c endp username teamname duty.role startUnix (startUnix + 86400)) =
        .ok s b →
      s ≠ 201 →
      (addDayDuty c env k duty username teamname).1 = none) := by
  refine ⟨?_, ?_, ?_, ?_⟩
  · intro c env k username teamname endp s b hj hh hs
    unfold AddUserToTeam
    simp only [hj]
    rw [hh]
  · intro c env k u endp endp2 s1 s2 b1 b2 h1 hp1 hs h2 hp2
    unfold CreateUser
    simp only [h1]
    rw [hp1]
    dsimp only
    simp only [h2]
    rw [hp2]
  · intro c env k t endp s b hj hh hs
    refine ⟨_, by rw [CreateTeam_false_eq c env k t endp hj], ?_⟩
    simp [teamCallResponse, hh]
  · intro c env k duty username teamname endp startUnix s b hd hj hp hex hcr hs
    unfold addDayDuty
    simp only [if_neg hd, hj, hp]
    rw [hex]
    simp only [Bool.false_eq_true, if_false, if_neg]
    rw [hcr]

/-! ## Witnesses -/

/-- Witness for claim C1 at a concrete client, environment and duty:
the query comes back with zero matches, so the trace is the query
followed by the create call. -/
theorem claim1_witness :
    dutyW.date ≠ "" ∧
    envList0.joinPath cW.oncallURL [scheduleEndpoint] = some eventsURL ∧
    parseDDMMYYYY dutyW.date = some 1717200000 ∧
    (addDayDuty cW envList0 0 dutyW "alice" "sre").2 =
      (if (0 : Nat) = 0 then
        [dutyQueryRequest eventsURL "alice" "sre" 1717200000 (1717200000 + 86400) dutyW.role,
         dutyCreateRequest cW eventsURL "alice" "sre" dutyW.role 1717200000
           (1717200000 + 86400)]
      else
        [dutyQueryRequest eventsURL "alice" "sre" 1717200000 (1717200000 + 86400)
          dutyW.role]) :=
  ⟨by decide, rfl, by decide,
   claim1_addDayDuty_query_gates_create cW envList0 0 dutyW "alice" "sre" eventsURL
     1717200000 200 (.jsonList 0) 0 (by decide) rfl (by decide) rfl rfl⟩

/-- Witness for claim C3 at a concrete one-team configuration. -/
theorem claim3_witness :
    envAll201.joinPath cW.oncallURL [teamsEndpoint] = some teamsURL ∧
    CreateTeam cW envAll201 0 tW false =
      (.ok { response := teamCallResponse cW envAll201 0 tW teamsURL,
             userCreateResponses := (processUsers cW envAll201 1 tW.name tW.users [] []).1.1,
             userAddToTeamResponses :=
               (processUsers cW envAll201 1 tW.name tW.users [] []).1.2 },
       teamCreateRequest cW teamsURL tW :: userStepsTrace cW envAll201 1 tW.name tW.users) :=
  ⟨rfl, claim3_createTeam_processes_all_users cW envAll201 0 tW teamsURL rfl⟩

/-- Witness for the amended claim C4: both round trips complete with
status 201 and the returned CallResult is exactly the first call's. -/
theorem claim4_witness :
    envAll201.joinPath cW.oncallURL [usersEndpoint] = some usersURL ∧
    envAll201.joinPath usersURL [uW.name] = some aliceURL ∧
    CreateUser cW envAll201 0 uW =
      (.ok { urlPath := "", responseTime := envAll201.elapsed 0, statusCode := 201 },
       [userCreateRequest cW usersURL uW.name, userUpdateRequest cW aliceURL uW]) :=
  ⟨rfl, rfl,
   (claim4_amended_createUser cW envAll201 0 uW usersURL aliceURL rfl rfl).1
     201 201 (.jsonList 0) (.jsonList 0) rfl rfl⟩

/-- Witness for the amended claim C5: a transport failure of the
authentication exchange yields exactly LoginFailed. -/
theorem claim5_witness :
    envErr.joinPath cW.oncallURL [loginEndpoint] = some loginURL ∧
    envErr.http 0 (loginRequest loginURL) = .err "down" ∧
    Login cW envErr 0 = (cW, some .loginFailed, [loginRequest loginURL]) :=
  ⟨rfl, rfl, claim5_amended_login_token.2.1 cW envErr 0 loginURL "down" rfl rfl⟩

/-- Witness for claim C6: AddUserToTeam completes with status 400 and
still returns a successful CallResult carrying 400. -/
theorem claim6_witness :
    envStatus400.joinPath cW.oncallURL [teamsEndpoint, "sre", "users"] = some addUserURLW ∧
    (400 : Nat) ≠ 201 ∧
    AddUserToTeam cW envStatus400 0 "alice" "sre" =
      (.ok { urlPath := "", responseTime := envStatus400.elapsed 0, statusCode := 400 },
       [addUserRequest cW addUserURLW "alice"]) :=
  ⟨rfl, by decide,
   claim6_non_created_status_not_error.1 cW envStatus400 0 "alice" "sre" addUserURLW 400
     .badBody rfl rfl (by decide)⟩

/-- Witness for claim C7 at a concrete empty-date duty. -/
theorem claim7_witness :
    dutyEmptyW.date = "" ∧
    addDayDuty cW envErr 0 dutyEmptyW "alice" "sre" = (none, []) :=
  ⟨rfl, claim7_empty_date_skipped.1 cW envErr 0 dutyEmptyW "alice" "sre" rfl⟩

/-- Witness for claim C8 at the unparseable date 32/01/2024. -/
theorem claim8_witness :
    dutyBadW.date ≠ "" ∧
    parseDDMMYYYY dutyBadW.date = none ∧
    addDayDuty cW envList0 0 dutyBadW "alice" "sre" = (none, []) ∧
    CreateSchedule cW envList0 0 "alice" "sre" [dutyBadW] =
      CreateSchedule cW envList0 0 "alice" "sre" [] := by
  have h := claim8_parse_failure_skipped cW envList0 0 dutyBadW "alice" "sre" eventsURL
    (by decide) rfl (by decide)
  exact ⟨by decide, by decide, h.1, h.2 []⟩

/-- Witness for claim C9 at a concrete failing transport. -/
theorem claim9_witness :
    envErr.joinPath cW.oncallURL [teamsEndpoint] = some teamsURL ∧
    envErr.http 0 (teamCreateRequest cW teamsURL tW) = .err "down" ∧
    CreateTeam cW envErr 0 tW true = (.panicked, [teamCreateRequest cW teamsURL tW]) :=
  ⟨rfl, rfl, claim9_returnEarly_transport_panic cW envErr 0 tW teamsURL "down" rfl rfl⟩

/-- Witness for claim C10: the existence query transport-fails, the
check comes back false, and the create call is issued anyway. -/
theorem claim10_witness :
    (existsDayDuty cW envQueryFails 0 "alice" "sre" 1717200000 (1717200000 + 86400)
      dutyW.role).1 = false ∧
    (addDayDuty cW envQueryFails 0 dutyW "alice" "sre").2 =
      (existsDayDuty cW envQueryFails 0 "alice" "sre" 1717200000 (1717200000 + 86400)
        dutyW.role).2 ++
        [dutyCreateRequest cW eventsURL "alice" "sre" dutyW.role 1717200000
          (1717200000 + 86400)] := by
  refine ⟨by decide, ?_⟩
  exact claim10_exists_fails_open.2.2.2 cW envQueryFails 0 dutyW "alice" "sre" eventsURL
    1717200000 (by decide) rfl (by decide) (by decide)

end Oncall
